import Mathlib

/-!
Shallow embedding of the connection/event-scheduling core of the pulsar
repository (src/pulsar/utils/pylib/protocols.py and
src/pulsar/async/eventloop.py), together with theorems settling the
specification claims about it.

Machine state is modelled functionally: every Python method that mutates
`self` becomes a Lean function from the state to the new state.  The
`events` module (one-time events) and the `futures` module (Future/Task)
are imported by the source but are not part of this repository snapshot;
the small parts of their behaviour that the claims depend on are modelled
from the specification and marked as such in doc comments.
-/

namespace Pulsar

/-- Modelled from the spec: the `events` module is not in the source tree.
A one-time ("oneshot") event remembers whether it has fired; its observers
are invoked at most once across its lifetime, so firing an already-fired
oneshot event invokes nothing.  `count` records how many times the
observers were actually invoked. -/
structure OneTime where
  fired : Bool
  count : Nat
deriving Repr, DecidableEq

/-- A freshly created one-time event: never fired. -/
def OneTime.fresh : OneTime := ⟨false, 0⟩

/-- Modelled from the spec: firing a oneshot event invokes its observers
and marks it fired, unless it already fired, in which case nothing
happens. -/
def OneTime.fire (e : OneTime) : OneTime :=
  if e.fired then e else ⟨true, e.count + 1⟩

/-- Behavioural model of an asyncio transport as seen by `Protocol`:
which optional capabilities it has and which of its methods raise when
called.  `is_closing` is the value its `is_closing()` method reports. -/
structure Transport where
  can_write_eof : Bool
  write_eof_raises : Bool
  close_raises : Bool
  is_closing : Bool
deriving Repr, DecidableEq

/-- State of a `Protocol` instance (protocols.py lines 83-229).
`closedFlag` is the truthiness of the `_closed` attribute (`None` until
`close()` runs; afterwards either a close-wait task or `True`, both
truthy).  `connection_lost` is the oneshot `connection_lost` event.  The
`*Calls` counters log the transport operations the protocol performed.
The consumer slot `_current_consumer` holds the active consumer state of
type `σ` (the concrete consumer is a pluggable subclass). -/
structure ProtocolState (σ : Type) where
  transport : Option Transport
  closedFlag : Bool
  connection_lost : OneTime
  _current_consumer : Option σ
  session : Nat
  processed : Nat
  data_received_count : Nat
  last_change : Option Nat
  write_eof_calls : Nat
  transport_close_calls : Nat
  transport_abort_calls : Nat
deriving Repr, DecidableEq

/-- `Protocol.__init__` (lines 101-108): a freshly constructed protocol
has no transport (class attribute default), records the producer's
current `sessions` counter as its session, zero processed requests, and a
fresh (unfired) `connection_lost` event. -/
def Protocol.init (σ : Type) (producerSessions : Nat) : ProtocolState σ :=
  { transport := none
    closedFlag := false
    connection_lost := OneTime.fresh
    _current_consumer := none
    session := producerSessions
    processed := 0
    data_received_count := 0
    last_change := none
    write_eof_calls := 0
    transport_close_calls := 0
    transport_abort_calls := 0 }

/-- `Protocol.closed` (lines 118-124): `transport.is_closing()` when a
transport is present, `True` otherwise. -/
def Protocol.closed {σ : Type} (s : ProtocolState σ) : Bool :=
  match s.transport with
  | some t => t.is_closing
  | none => true

/-- `Protocol.close` (lines 141-167).  When not already closed: if a
transport exists, attempt `write_eof` when supported (exceptions
swallowed), then attempt `transport.close()`; on success a close-wait
task is created (`closed` becomes truthy) and the event is left to be
fired by the eventual `connection_lost` callback; if `transport.close()`
raises, the exception is swallowed and `closed` stays falsy.  If `closed`
is still falsy (no transport, or the close attempt raised), the
`connection_lost` event is fired immediately as a fallback.  Finally
`_closed` is set to a truthy value.  A second call is a no-op. -/
def Protocol.close {σ : Type} (s : ProtocolState σ) : ProtocolState σ :=
  if s.closedFlag then s
  else
    match s.transport with
    | none =>
        { s with connection_lost := s.connection_lost.fire, closedFlag := true }
    | some t =>
        let s1 := if t.can_write_eof
                  then { s with write_eof_calls := s.write_eof_calls + 1 }
                  else s
        let s2 := { s1 with transport_close_calls := s1.transport_close_calls + 1 }
        if t.close_raises then
          { s2 with connection_lost := s2.connection_lost.fire, closedFlag := true }
        else
          { s2 with closedFlag := true }

/-- `Protocol.abort` (lines 169-174): abort the transport when present,
then fire `connection_lost` directly.  Note that `abort` does not set the
`_closed` flag. -/
def Protocol.abort {σ : Type} (s : ProtocolState σ) : ProtocolState σ :=
  let s1 := match s.transport with
            | some _ => { s with transport_abort_calls := s.transport_abort_calls + 1 }
            | none => s
  { s1 with connection_lost := s1.connection_lost.fire }

/-- `Protocol.connection_lost` (lines 195-198): the callback the
transport layer invokes on external connection failure; it fires the
oneshot `connection_lost` event. -/
def Protocol.connection_lost_cb {σ : Type} (s : ProtocolState σ) : ProtocolState σ :=
  { s with connection_lost := s.connection_lost.fire }

/-- A teardown trigger: an explicit `close()`, an explicit `abort()`, or
the transport layer reporting connection loss. -/
inductive TearOp
  | close
  | abort
  | extLost
deriving Repr, DecidableEq

/-- Run a sequence of teardown triggers against a protocol state. -/
def Protocol.runTear {σ : Type} (s : ProtocolState σ) : List TearOp → ProtocolState σ
  | [] => s
  | TearOp.close :: ops => Protocol.runTear (Protocol.close s) ops
  | TearOp.abort :: ops => Protocol.runTear (Protocol.abort s) ops
  | TearOp.extLost :: ops => Protocol.runTear (Protocol.connection_lost_cb s) ops

/-! ### Clock service registry (protocols.py lines 17-36) -/

/-- A `TimeTracker` instance.  `trackerId` models Python object identity
(each construction yields a fresh id); `loopId` is the loop it was
constructed with.  The constructor also caches the current time and arms
a self-rescheduling timer; neither affects registry lookup, which is what
the claims are about. -/
structure TimeTracker where
  trackerId : Nat
  loopId : Nat
deriving Repr, DecidableEq

/-- The process-wide class attribute `TimeTracker.timeHandlers`, a dict
from loop (identity modelled as `Nat`) to tracker, plus the allocator for
fresh object identities. -/
structure TrackerRegistry where
  timeHandlers : List (Nat × TimeTracker)
  nextId : Nat
deriving Repr, DecidableEq

/-- Dict lookup in the association-list model: the first binding for a
key wins (matching dict overwrite by shadowing). -/
def lookupLoop (loop : Nat) : List (Nat × TimeTracker) → Option TimeTracker
  | [] => none
  | (k, t) :: rest => if k = loop then some t else lookupLoop loop rest

/-- `timeHandlers.get(loop)`. -/
def TrackerRegistry.get (r : TrackerRegistry) (loop : Nat) : Option TimeTracker :=
  lookupLoop loop r.timeHandlers

/-- `TimeTracker.register(loop)` (lines 20-24): when the registry holds
no tracker for `loop` (a tracker object is always truthy, so
`not ...get(loop)` is exactly absence), construct one and store it; then
return the registry entry for `loop`. -/
def TimeTracker.register (r : TrackerRegistry) (loop : Nat) :
    TrackerRegistry × TimeTracker :=
  match TrackerRegistry.get r loop with
  | some t => (r, t)
  | none =>
      let t : TimeTracker := ⟨r.nextId, loop⟩
      ({ timeHandlers := (loop, t) :: r.timeHandlers, nextId := r.nextId + 1 }, t)

/-! ### Producer (protocols.py lines 39-80) -/

/-- The `Producer` counters the claims are about: the session counter and
the cumulative processed-request counter. -/
structure ProducerState where
  sessions : Nat
  requests_processed : Nat
deriving Repr, DecidableEq

/-- `Producer.create_protocol` (lines 58-67): increment `sessions`, then
invoke the protocol factory with `self`; `Protocol.__init__` reads
`producer.sessions` (its post-increment value) as the new protocol's
`session`.  The grafting of repeating-event observers
(`copy_many_times_events`) has no effect on any counter. -/
def Producer.create_protocol (σ : Type) (p : ProducerState) :
    ProducerState × ProtocolState σ :=
  let p1 : ProducerState := { p with sessions := p.sessions + 1 }
  (p1, Protocol.init σ p1.sessions)

/-- Iterate `create_protocol` `n` times, collecting the `session` values
recorded by the created protocols. -/
def Producer.createMany (p : ProducerState) : Nat → ProducerState × List Nat
  | 0 => (p, [])
  | n + 1 =>
      let step := Producer.create_protocol Unit p
      let rest := Producer.createMany step.1 n
      (rest.1, step.2.session :: rest.2)

/-! ### ProtocolConsumer (protocols.py lines 232-302) -/

/-- A request object: either the `dummyRequest` sentinel produced by
`create_request`, or an externally supplied (truthy) request. -/
inductive Request
  | dummyRequest
  | explicit (n : Nat)
deriving Repr, DecidableEq

/-- State of a `ProtocolConsumer` together with the two counters its
`start` mutates through `self.connection` and `self.producer`:
`connection_processed` models `connection.processed` and
`requests_processed` models `producer.requests_processed`.  The remaining
fields log what `start` did: how many times `_finished` was bound to the
`post_request` event, how many times the repeating `pre_request` event
was fired, how many times `start_request` ran, and how many aborted
requests were logged. -/
structure ConsumerState where
  request : Option Request
  post_request_binds : Nat
  connection_processed : Nat
  requests_processed : Nat
  pre_request_fires : Nat
  start_request_calls : Nat
  abort_logged : Nat
deriving Repr, DecidableEq

/-- A freshly constructed consumer on a fresh connection: no request,
all counters zero. -/
def ProtocolConsumer.init : ConsumerState :=
  ⟨none, 0, 0, 0, 0, 0, 0⟩

/-- `ProtocolConsumer.start` (lines 241-261).  Unconditionally:
increment `connection.processed` and `producer.requests_processed`, bind
`_finished` to `post_request`, set `request` to the argument or to
`create_request()`'s `dummyRequest` when the argument is absent, fire
`pre_request`.  `preRequestAborts` says whether some `pre_request`
observer raised `AbortEvent`: if so the abort is logged and
`start_request` is skipped, otherwise `start_request` runs.  There is no
guard against a repeated call. -/
def ProtocolConsumer.start (preRequestAborts : Bool) (req : Option Request)
    (c : ConsumerState) : ConsumerState :=
  let c1 : ConsumerState :=
    { c with connection_processed := c.connection_processed + 1,
             requests_processed := c.requests_processed + 1,
             post_request_binds := c.post_request_binds + 1,
             request := some (req.getD Request.dummyRequest) }
  if preRequestAborts then
    { c1 with pre_request_fires := c1.pre_request_fires + 1,
              abort_logged := c1.abort_logged + 1 }
  else
    { c1 with pre_request_fires := c1.pre_request_fires + 1,
              start_request_calls := c1.start_request_calls + 1 }

/-! ### Event loop scheduling (eventloop.py) -/

/-- An `asyncio.TimerHandle` as `LoopingCall` manipulates it: object
identity `hid`, the `_cancelled` flag and the `_when` due time. -/
structure TimerHandle where
  hid : Nat
  cancelled : Bool
  whenT : Int
deriving Repr, DecidableEq

/-- The slice of an event loop's state that the scheduling primitives
touch: the current clock reading `timeNow` (`loop.time()`), the fresh
handle-identity allocator, the `_ready` FIFO of handle identities queued
for the next iteration, and the timer structure holding scheduled
`TimerHandle`s (the heap order is irrelevant to the claims, so it is kept
as the collection of inserted handles). -/
structure LoopState where
  timeNow : Int
  nextId : Nat
  ready : List Nat
  timers : List TimerHandle
deriving Repr, DecidableEq

/-- `loop.call_later(delay, cb)`: allocate a fresh timer handle due at
`now + delay` and insert it into the timer structure. -/
def LoopState.call_later (L : LoopState) (delay : Int) : LoopState × TimerHandle :=
  let h : TimerHandle := ⟨L.nextId, false, L.timeNow + delay⟩
  ({ L with nextId := L.nextId + 1, timers := h :: L.timers }, h)

/-- `loop.call_soon(cb)`: allocate a fresh handle and append it to the
`_ready` FIFO. -/
def LoopState.call_soon (L : LoopState) : LoopState × Nat :=
  ({ L with nextId := L.nextId + 1, ready := L.ready ++ [L.nextId] }, L.nextId)

/-- `loop._add_callback(handle)`: re-insert an existing timer handle into
the timer structure (no fresh handle is allocated). -/
def LoopState._add_callback (L : LoopState) (h : TimerHandle) : LoopState :=
  { L with timers := h :: L.timers }

/-- The handle a `LoopingCall` holds: a timer handle (interval mode) or a
plain `call_soon` handle known by its identity (continuous mode). -/
inductive LCHandler
  | timer (h : TimerHandle)
  | soon (hid : Nat)
deriving Repr, DecidableEq

/-- The identity of the handle. -/
def LCHandler.hid : LCHandler → Nat
  | LCHandler.timer h => h.hid
  | LCHandler.soon n => n

/-- State of a `LoopingCall` (eventloop.py lines 67-120): `interval` is
`self.interval` (`none` models Python `None`), `handler` is
`self.handler`, `_cancelled` the cancellation flag, and `runs` counts how
many times the wrapped callback has been invoked by `__call__`. -/
structure LoopingCallState where
  interval : Option Int
  handler : LCHandler
  _cancelled : Bool
  runs : Nat
deriving Repr, DecidableEq

/-- `LoopingCall.__init__` (lines 69-80): with `interval = interval or 0`,
if `interval > 0` schedule the first invocation via
`call_later(interval, self)` and remember the interval and the handle;
otherwise set `self.interval = None` and queue via `call_soon(self)`. -/
def LoopingCall.init (L : LoopState) (interval : Option Int) :
    LoopState × LoopingCallState :=
  let i := interval.getD 0
  if 0 < i then
    let r := LoopState.call_later L i
    (r.1, ⟨some i, LCHandler.timer r.2, false, 0⟩)
  else
    let r := LoopState.call_soon L
    (r.1, ⟨none, LCHandler.soon r.2, false, 0⟩)

/-- `LoopingCall.cancel` (lines 86-88): set the cancellation flag. -/
def LoopingCall.cancel (c : LoopingCallState) : LoopingCallState :=
  { c with _cancelled := true }

/-- `LoopingCall._continue` (lines 102-111): do nothing when cancelled;
otherwise, when `self.interval` is truthy (a non-`None`, non-zero
interval) reuse the same timer handle — reset its cancelled flag, set its
due time to `loop.time() + interval`, re-insert it via `_add_callback` —
and otherwise append the same handle to the loop's `_ready` FIFO. -/
def LoopingCall._continue (L : LoopState) (c : LoopingCallState) :
    LoopState × LoopingCallState :=
  if c._cancelled then (L, c)
  else
    match c.interval, c.handler with
    | some i, LCHandler.timer h =>
        if i = 0 then ({ L with ready := L.ready ++ [c.handler.hid] }, c)
        else
          let h1 : TimerHandle := { h with cancelled := false, whenT := L.timeNow + i }
          (LoopState._add_callback L h1, { c with handler := LCHandler.timer h1 })
    | _, _ =>
        ({ L with ready := L.ready ++ [c.handler.hid] }, c)

/-- Modelled from the spec: the `futures` module is not in the source
tree.  The observable outcome of one invocation of the wrapped callback:
it raises synchronously; it returns a plain (non-Future) value; it
returns an in-flight Future that later completes successfully; or it
returns a Future that later completes with an error. -/
inductive CallbackOutcome
  | raises
  | syncValue
  | asyncOk
  | asyncErr
deriving Repr, DecidableEq

/-- One complete iteration of a `LoopingCall`: `__call__` (lines 90-100)
runs the callback (regardless of the cancellation flag), and the
rearming decision is taken by `_continue` directly for plain values, or
by `_might_continue` (lines 113-120) once a returned Future completes.
A synchronous raise or a Future error is logged
(`logger.exception`, counted by the returned `Nat`) and cancels the
looping call; it is never re-raised into the loop.  Returns the new loop
state, the new looping-call state, and the number of errors logged. -/
def LoopingCall.invoke (L : LoopState) (c : LoopingCallState)
    (out : CallbackOutcome) : LoopState × LoopingCallState × Nat :=
  let c0 : LoopingCallState := { c with runs := c.runs + 1 }
  match out with
  | CallbackOutcome.raises => (L, LoopingCall.cancel c0, 1)
  | CallbackOutcome.syncValue =>
      let r := LoopingCall._continue L c0
      (r.1, r.2, 0)
  | CallbackOutcome.asyncOk =>
      let r := LoopingCall._continue L c0
      (r.1, r.2, 0)
  | CallbackOutcome.asyncErr => (L, LoopingCall.cancel c0, 1)

/-! ### QueueTask wakeup (eventloop.py lines 123-129) -/

/-- Observable effects of `QueueTask._wakeup`: `posted` lists the
re-posted wakeup calls as `(target loop, inthread flag)` pairs queued via
`call_soon` on the task's own loop, and `inline_wakeups` counts the
invocations of the base `Task._wakeup` (modelled from the spec: the
`futures` module's `Task` is not in the source tree; its `_wakeup`
resumes the task inline). -/
structure WakeState where
  posted : List (Nat × Bool)
  inline_wakeups : Nat
deriving Repr, DecidableEq

/-- `QueueTask._wakeup(fut, inthread=False)`: when `inthread` is set or
the future's loop is the task's own loop, resume inline via the base
class; otherwise re-post `self._wakeup(fut, True)` onto the task's own
loop via `call_soon`.  Loop identity is modelled by `Nat`. -/
def QueueTask._wakeup (taskLoop futLoop : Nat) (inthread : Bool)
    (s : WakeState) : WakeState :=
  if inthread = true ∨ taskLoop = futLoop then
    { s with inline_wakeups := s.inline_wakeups + 1 }
  else
    { s with posted := s.posted ++ [(taskLoop, true)] }

/-- Execute every call re-posted on the task's loop: each posted entry
runs `_wakeup` again with its recorded `inthread` flag. -/
def QueueTask.drainPosted (taskLoop futLoop : Nat) (s : WakeState) : WakeState :=
  s.posted.foldl (fun acc p => QueueTask._wakeup taskLoop futLoop p.2 acc)
    { s with posted := [] }

/-! ### Protocol.data_received (protocols.py lines 200-213) -/

/-- The behaviour of a concrete `ProtocolConsumer` subclass as
`Protocol.data_received` observes it.  `create` is the consumer the
factory yields in `current_consumer()` (lines 126-130), already carrying
the producer's grafted repeating-event observers; `hasRequest` is the
truthiness of `consumer.request`; `start` is the state change of
`consumer.start()`; `feed_data c d` returns the content of the
protocol's `_current_consumer` slot after the call (the consumer may
have detached itself because its `post_request` fired while feeding,
lines 218-220 and 287-288) together with `toprocess`, the suffix of `d`
it did not consume. -/
structure ConsumerModel (σ : Type) where
  create : σ
  hasRequest : σ → Bool
  start : σ → σ
  feed_data : σ → List Nat → Option σ × List Nat

/-- One iteration of the `data_received` while-loop, as logged:
`cpre` is the consumer `current_consumer()` returned, `started` whether
`consumer.start()` was called this iteration, `fed` the bytes passed to
`feed_data`, and `toprocess` the unconsumed suffix it returned. -/
structure FeedStep (σ : Type) where
  cpre : σ
  started : Bool
  fed : List Nat
  toprocess : List Nat

/-- The bytes an iteration's `feed_data` call consumed: its input minus
the returned unconsumed suffix. -/
def FeedStep.consumed {σ : Type} (st : FeedStep σ) : List Nat :=
  st.fed.take (st.fed.length - st.toprocess.length)

/-- The `while data:` loop of `data_received` (lines 206-212), with an
explicit fuel argument for termination (the Python loop terminates
exactly when every `feed_data` call makes progress; fuel
`data.length` suffices then).  Each iteration: obtain the consumer from
the slot, creating one lazily only when the slot is empty
(`current_consumer()`); call `start()` exactly when the consumer has no
request; feed the remaining bytes; fire the repeating `data_processed`
event; continue with the returned unconsumed suffix.  Returns the final
slot content and the log of iterations. -/
def Protocol.data_received_loop {σ : Type} (M : ConsumerModel σ) :
    Nat → Option σ → List Nat → Option σ × List (FeedStep σ)
  | _, slot, [] => (slot, [])
  | 0, slot, _ :: _ => (slot, [])
  | fuel + 1, slot, b :: bs =>
      let c0 := slot.getD M.create
      let hasReq := M.hasRequest c0
      let c1 := if hasReq then c0 else M.start c0
      let fd := M.feed_data c1 (b :: bs)
      let rest := Protocol.data_received_loop M fuel fd.1 fd.2
      (rest.1, ⟨c0, ! hasReq, b :: bs, fd.2⟩ :: rest.2)

/-- `Protocol.data_received` (lines 200-213): bump
`data_received_count`, run the while-loop over the data, then call
`changed()` once, which stores `producer.current_time` (the clock
service's cached time, passed here as `currentTime`) into
`last_change`. -/
def Protocol.data_received {σ : Type} (M : ConsumerModel σ) (currentTime : Nat)
    (s : ProtocolState σ) (data : List Nat) :
    ProtocolState σ × List (FeedStep σ) :=
  let r := Protocol.data_received_loop M data.length s._current_consumer data
  ({ s with data_received_count := s.data_received_count + 1,
            _current_consumer := r.1,
            last_change := some currentTime }, r.2)

/-- A consumer model makes progress when `feed_data` always returns a
proper suffix of its input: some bytes are consumed on every call.  This
is the regime in which the Python while-loop terminates. -/
def ConsumerModel.Progress {σ : Type} (M : ConsumerModel σ) : Prop :=
  ∀ (c : σ) (d : List Nat), d ≠ [] →
    (M.feed_data c d).2 <:+ d ∧ (M.feed_data c d).2.length < d.length

/-! ## Theorems settling the claims -/

/-- C10: for every `Protocol` whose transport is absent — including a
freshly constructed instance on which `connection_made` was never
called — the `closed` property returns `True`; when a transport is
present, `closed` returns exactly the transport's `is_closing()`
result. -/
theorem Protocol.closed_spec {σ : Type} (n : Nat) (s : ProtocolState σ) :
    Protocol.closed (Protocol.init σ n) = true ∧
    (s.transport = none → Protocol.closed s = true) ∧
    (∀ t : Transport, s.transport = some t → Protocol.closed s = t.is_closing) := by
  refine ⟨rfl, ?_, ?_⟩
  · intro h
    simp [Protocol.closed, h]
  · intro t h
    simp [Protocol.closed, h]

/-- Witness for C10 at concrete inputs: a fresh protocol is closed, and
with a transport present `closed` equals its `is_closing()`. -/
theorem Protocol.closed_spec_witness :
    Protocol.closed (Protocol.init Unit 0) = true ∧
    Protocol.closed ({ Protocol.init Unit 5 with
        transport := some ⟨true, false, false, true⟩ } : ProtocolState Unit) = true := by
  have h1 := (Protocol.closed_spec 0 (Protocol.init Unit 0)).1
  have h2 := (Protocol.closed_spec 5
    ({ Protocol.init Unit 5 with
        transport := some ⟨true, false, false, true⟩ } : ProtocolState Unit)).2.2
    ⟨true, false, false, true⟩ rfl
  exact ⟨h1, h2⟩

/-- C3: `Protocol.close()` is idempotent — a second `close()` returns the
state unchanged, so it performs no further transport operations (the
`write_eof`/`close` call counters do not move) and causes no additional
`connection_lost` firing. -/
theorem Protocol.close_idempotent {σ : Type} (s : ProtocolState σ) :
    Protocol.close (Protocol.close s) = Protocol.close s := by
  have key : ∀ u : ProtocolState σ, u.closedFlag = true → Protocol.close u = u := by
    intro u hu
    unfold Protocol.close
    simp [hu]
  have h : (Protocol.close s).closedFlag = true := by
    unfold Protocol.close
    by_cases hc : s.closedFlag
    · simp [hc]
    · cases ht : s.transport with
      | none => simp [hc, ht]
      | some t =>
          by_cases he : t.can_write_eof <;> by_cases hr : t.close_raises <;>
            simp [hc, ht, he, hr]
  exact key _ h

/-- C2 counterexample: `ProtocolConsumer.start` has no guard against a
second call.  On a fresh consumer, one call brings both counters to 1,
and a second call brings both to 2 — the claim that the second call is
rejected or a no-op (leaving the counters at 1) is false. -/
theorem ProtocolConsumer.start_twice_counterexample :
    (ProtocolConsumer.start false none ProtocolConsumer.init).connection_processed = 1 ∧
    (ProtocolConsumer.start false none ProtocolConsumer.init).requests_processed = 1 ∧
    (ProtocolConsumer.start false none
      (ProtocolConsumer.start false none
        ProtocolConsumer.init)).connection_processed = 2 ∧
    (ProtocolConsumer.start false none
      (ProtocolConsumer.start false none
        ProtocolConsumer.init)).requests_processed = 2 := by
  decide

/-- C2 (amended): every call of `ProtocolConsumer.start` — including a
repeated call on the same instance — increments the connection-level
`processed` counter and the producer-level `requests_processed` counter
by exactly one, and binds `_finished` to `post_request` once more; the
code has no guard, so at-most-once is an obligation on callers, not an
enforced property. -/
theorem ProtocolConsumer.start_increments (a : Bool) (req : Option Request)
    (c : ConsumerState) :
    (ProtocolConsumer.start a req c).connection_processed =
        c.connection_processed + 1 ∧
    (ProtocolConsumer.start a req c).requests_processed =
        c.requests_processed + 1 ∧
    (ProtocolConsumer.start a req c).post_request_binds =
        c.post_request_binds + 1 := by
  unfold ProtocolConsumer.start
  by_cases h : a <;> simp [h]

/-- Sessions recorded by `createMany` are the successive counter values. -/
theorem Producer.createMany_sessions (n : Nat) :
    ∀ p : ProducerState,
      (Producer.createMany p n).2 =
        (List.range n).map (fun i => p.sessions + i + 1) ∧
      (Producer.createMany p n).1.sessions = p.sessions + n := by
  induction n with
  | zero => intro p; simp [Producer.createMany]
  | succ m ih =>
      intro p
      have step1 : (Producer.createMany { p with sessions := p.sessions + 1 } m).2 =
          (List.range m).map (fun i => p.sessions + 1 + i + 1) := by
        simpa using (ih { p with sessions := p.sessions + 1 }).1
      have step2 : (Producer.createMany { p with sessions := p.sessions + 1 } m).1.sessions =
          p.sessions + 1 + m := by
        simpa using (ih { p with sessions := p.sessions + 1 }).2
      refine ⟨?_, ?_⟩
      · show (p.sessions + 1) :: (Producer.createMany
            { p with sessions := p.sessions + 1 } m).2 = _
        rw [step1, List.range_succ_eq_map]
        simp only [List.map_cons, List.map_map, List.cons.injEq]
        refine ⟨trivial, ?_⟩
        apply List.map_congr_left
        intro i _
        simp only [Function.comp_apply]
        omega
      · show (Producer.createMany { p with sessions := p.sessions + 1 } m).1.sessions =
            p.sessions + (m + 1)
        rw [step2]
        omega

/-- C8: each `Producer.create_protocol()` call increments `sessions` by
exactly one before invoking the protocol factory, and the created
`Protocol` records the counter's new value as its `session`; over any
run of `n` calls the recorded session numbers are the strictly
increasing (hence non-decreasing and pairwise distinct) values
`sessions+1, …, sessions+n`. -/
theorem Producer.create_protocol_sessions (p : ProducerState) (n : Nat) :
    (Producer.create_protocol Unit p).1.sessions = p.sessions + 1 ∧
    (Producer.create_protocol Unit p).2.session = p.sessions + 1 ∧
    (Producer.createMany p n).2 =
        (List.range n).map (fun i => p.sessions + i + 1) ∧
    List.Pairwise (· < ·) (Producer.createMany p n).2 := by
  refine ⟨rfl, rfl, (Producer.createMany_sessions n p).1, ?_⟩
  rw [(Producer.createMany_sessions n p).1]
  exact (List.pairwise_lt_range n).map _ (fun a b hab => by omega)

/-- A key absent from the lookup is absent from the association list. -/
theorem lookupLoop_none_not_mem (loop : Nat) :
    ∀ l : List (Nat × TimeTracker), lookupLoop loop l = none →
      loop ∉ l.map Prod.fst := by
  intro l
  induction l with
  | nil => intro _ h; simp at h
  | cons kv rest ih =>
      intro hnone
      unfold lookupLoop at hnone
      by_cases hk : kv.1 = loop
      · rw [if_pos hk] at hnone
        exact absurd hnone (by simp)
      · rw [if_neg hk] at hnone
        simp only [List.map_cons, List.mem_cons]
        intro hmem
        rcases hmem with h | h
        · exact hk h.symm
        · exact ih hnone h

/-- The lookup-hit branch of `register`. -/
theorem TimeTracker.register_get_some (r : TrackerRegistry) (loop : Nat)
    (t : TimeTracker) (h : TrackerRegistry.get r loop = some t) :
    TimeTracker.register r loop = (r, t) := by
  unfold TimeTracker.register
  rw [h]

/-- The lookup-miss branch of `register`. -/
theorem TimeTracker.register_get_none (r : TrackerRegistry) (loop : Nat)
    (h : TrackerRegistry.get r loop = none) :
    TimeTracker.register r loop =
      ({ timeHandlers := (loop, ⟨r.nextId, loop⟩) :: r.timeHandlers,
         nextId := r.nextId + 1 }, ⟨r.nextId, loop⟩) := by
  unfold TimeTracker.register
  rw [h]

/-- C9: `TimeTracker.register(loop)` is an idempotent per-loop singleton
lookup: when no tracker exists for `loop`, one is created (with a fresh
object identity) and stored; when one exists, it is returned with the
registry untouched; a repeated call with the same loop returns the very
same tracker instance and leaves the registry (and the identity
allocator) unchanged; and distinctness of registry keys — at most one
tracker per distinct loop — is preserved. -/
theorem TimeTracker.register_spec (r : TrackerRegistry) (loop : Nat) :
    TimeTracker.register (TimeTracker.register r loop).1 loop =
        TimeTracker.register r loop ∧
    (TrackerRegistry.get r loop = none →
      (TimeTracker.register r loop).2 = ⟨r.nextId, loop⟩ ∧
      (TimeTracker.register r loop).1.timeHandlers =
        (loop, (TimeTracker.register r loop).2) :: r.timeHandlers ∧
      (TimeTracker.register r loop).1.nextId = r.nextId + 1) ∧
    (∀ t : TimeTracker, TrackerRegistry.get r loop = some t →
      TimeTracker.register r loop = (r, t)) ∧
    ((r.timeHandlers.map Prod.fst).Nodup →
      ((TimeTracker.register r loop).1.timeHandlers.map Prod.fst).Nodup) := by
  have hget : TrackerRegistry.get (TimeTracker.register r loop).1 loop =
      some (TimeTracker.register r loop).2 := by
    cases hc : TrackerRegistry.get r loop with
    | some t => rw [TimeTracker.register_get_some r loop t hc]; exact hc
    | none =>
        rw [TimeTracker.register_get_none r loop hc]
        simp [TrackerRegistry.get, lookupLoop]
  refine ⟨?_, ?_, ?_, ?_⟩
  · rw [TimeTracker.register_get_some _ _ _ hget]
  · intro hnone
    rw [TimeTracker.register_get_none r loop hnone]
    exact ⟨rfl, rfl, rfl⟩
  · intro t ht
    rw [TimeTracker.register_get_some r loop t ht]
  · intro hnd
    cases hc : TrackerRegistry.get r loop with
    | some t => rw [TimeTracker.register_get_some r loop t hc]; exact hnd
    | none =>
        rw [TimeTracker.register_get_none r loop hc]
        simp only [List.map_cons, List.nodup_cons]
        exact ⟨lookupLoop_none_not_mem loop r.timeHandlers hc, hnd⟩

/-- Witness for C9 at concrete inputs: registering loop 3 in the empty
registry creates tracker 0, and registering again returns the same
tracker with the registry unchanged. -/
theorem TimeTracker.register_spec_witness :
    TimeTracker.register
      (TimeTracker.register ⟨[], 0⟩ 3).1 3 = TimeTracker.register ⟨[], 0⟩ 3 ∧
    (TimeTracker.register (⟨[], 0⟩ : TrackerRegistry) 3).2 =
        (⟨0, 3⟩ : TimeTracker) := by
  have h := TimeTracker.register_spec ⟨[], 0⟩ 3
  exact ⟨h.1, (h.2.1 (by decide)).1⟩

/-- C5: a `LoopingCall` with `interval > 0` schedules its first
invocation via `call_later(interval)`, then on every iteration
`_continue` reuses the same timer handle: the handle keeps its identity,
its cancelled flag is reset, its due time becomes `now + interval`, it is
re-inserted into the loop's timer structure, and no new handle is
allocated.  With `interval` zero or absent, the first invocation goes
through `call_soon` and every iteration re-queues the same handle onto
the `_ready` FIFO (call_soon behaviour), again allocating nothing. -/
theorem LoopingCall.schedule_spec (L : LoopState) (i : Int)
    (c : LoopingCallState) (h : TimerHandle) (iv : Option Int) :
    (0 < i →
      (LoopingCall.init L (some i)).2.interval = some i ∧
      (LoopingCall.init L (some i)).2.handler =
        LCHandler.timer ⟨L.nextId, false, L.timeNow + i⟩ ∧
      (LoopingCall.init L (some i)).1.timers =
        ⟨L.nextId, false, L.timeNow + i⟩ :: L.timers ∧
      (LoopingCall.init L (some i)).1.ready = L.ready) ∧
    ((iv = none ∨ iv = some 0) →
      (LoopingCall.init L iv).2.interval = none ∧
      (LoopingCall.init L iv).2.handler = LCHandler.soon L.nextId ∧
      (LoopingCall.init L iv).1.ready = L.ready ++ [L.nextId] ∧
      (LoopingCall.init L iv).1.timers = L.timers) ∧
    (c._cancelled = false → c.interval = some i → i ≠ 0 →
      c.handler = LCHandler.timer h →
      (LoopingCall._continue L c).2.handler =
        LCHandler.timer ⟨h.hid, false, L.timeNow + i⟩ ∧
      (LoopingCall._continue L c).1.timers =
        ⟨h.hid, false, L.timeNow + i⟩ :: L.timers ∧
      (LoopingCall._continue L c).1.nextId = L.nextId ∧
      (LoopingCall._continue L c).1.ready = L.ready) ∧
    (c._cancelled = false → c.interval = none →
      (LoopingCall._continue L c).1.ready = L.ready ++ [LCHandler.hid c.handler] ∧
      (LoopingCall._continue L c).1.timers = L.timers ∧
      (LoopingCall._continue L c).1.nextId = L.nextId ∧
      (LoopingCall._continue L c).2 = c) := by
  refine ⟨?_, ?_, ?_, ?_⟩
  · intro hi
    have hne : ¬ i ≤ 0 := by omega
    simp [LoopingCall.init, LoopState.call_later, hi]
  · intro hiv
    rcases hiv with hiv | hiv <;>
      simp [hiv, LoopingCall.init, LoopState.call_soon]
  · intro hcf hci hiz hch
    simp [LoopingCall._continue, hcf, hci, hch, hiz, LoopState._add_callback]
  · intro hcf hci
    cases hh : c.handler with
    | timer th => simp [LoopingCall._continue, hcf, hci, hh, LCHandler.hid]
    | soon n => simp [LoopingCall._continue, hcf, hci, hh, LCHandler.hid]

/-- Witness for C5 at concrete inputs: interval 2 arms a timer due at
time 10 + 2 and continuation rearms the same handle; interval absent
queues onto `_ready`. -/
theorem LoopingCall.schedule_spec_witness :
    (LoopingCall.init ⟨10, 0, [], []⟩ (some 2)).2.handler =
        LCHandler.timer ⟨0, false, 12⟩ ∧
    (LoopingCall.init ⟨10, 0, [], []⟩ none).1.ready = [0] ∧
    (LoopingCall._continue ⟨10, 7, [], []⟩
        ⟨some 2, LCHandler.timer ⟨0, true, 5⟩, false, 3⟩).1.timers =
        [⟨0, false, 12⟩] := by
  have h1 := (LoopingCall.schedule_spec ⟨10, 0, [], []⟩ 2
    ⟨some 2, LCHandler.timer ⟨0, true, 5⟩, false, 3⟩ ⟨0, true, 5⟩ none).1
    (by decide)
  have h2 := (LoopingCall.schedule_spec ⟨10, 0, [], []⟩ 2
    ⟨some 2, LCHandler.timer ⟨0, true, 5⟩, false, 3⟩ ⟨0, true, 5⟩ none).2.1
    (Or.inl rfl)
  have h3 := (LoopingCall.schedule_spec ⟨10, 7, [], []⟩ 2
    ⟨some 2, LCHandler.timer ⟨0, true, 5⟩, false, 3⟩ ⟨0, true, 5⟩ none).2.2.1
    rfl rfl (by decide) rfl
  exact ⟨h1.2.1, h2.2.2.1, h3.2.1⟩

/-- C6: a `QueueTask` wakeup for a future that belongs to a different
loop is not performed inline: it is re-posted exactly once onto the
task's own loop via `call_soon` with the `inthread` tag set, and running
the re-posted call performs the normal (inline, base-class) wakeup on the
task's own loop, with no further re-posting; a wakeup for a future on the
same loop is performed inline immediately. -/
theorem QueueTask.wakeup_cross_loop (a b : Nat) (hab : a ≠ b) :
    (QueueTask._wakeup a b false ⟨[], 0⟩).posted = [(a, true)] ∧
    (QueueTask._wakeup a b false ⟨[], 0⟩).inline_wakeups = 0 ∧
    QueueTask.drainPosted a b (QueueTask._wakeup a b false ⟨[], 0⟩) =
      ⟨[], 1⟩ ∧
    QueueTask._wakeup a a false ⟨[], 0⟩ = ⟨[], 1⟩ := by
  have hstep : QueueTask._wakeup a b false ⟨[], 0⟩ =
      ⟨[(a, true)], 0⟩ := by
    simp [QueueTask._wakeup, hab]
  refine ⟨by rw [hstep], by rw [hstep], ?_, by simp [QueueTask._wakeup]⟩
  rw [hstep]
  simp [QueueTask.drainPosted, QueueTask._wakeup]

/-- Witness for C6 at concrete loops 0 and 1: the cross-loop wakeup is
re-posted once and the re-posted call resumes the task inline. -/
theorem QueueTask.wakeup_cross_loop_witness :
    (QueueTask._wakeup 0 1 false ⟨[], 0⟩).posted = [(0, true)] ∧
    QueueTask.drainPosted 0 1 (QueueTask._wakeup 0 1 false ⟨[], 0⟩) =
      ⟨[], 1⟩ := by
  have h := QueueTask.wakeup_cross_loop 0 1 (by decide)
  exact ⟨h.1, h.2.2.1⟩

/-- C7: a `LoopingCall` callback invocation that raises synchronously, or
whose returned in-flight asynchronous result completes with an error,
cancels the looping call and logs the error without touching the loop
state (nothing is rearmed, nothing propagates to the loop); and once the
cancellation flag is set — by `cancel()` or by the error path — an
invocation already in flight still runs the callback to completion, but
never arms a further invocation (loop state left unchanged for every
outcome). -/
theorem LoopingCall.error_and_cancel_spec (L : LoopState)
    (c : LoopingCallState) (out : CallbackOutcome) :
    ((LoopingCall.invoke L c CallbackOutcome.raises).1 = L ∧
      (LoopingCall.invoke L c CallbackOutcome.raises).2.1._cancelled = true ∧
      (LoopingCall.invoke L c CallbackOutcome.raises).2.2 = 1 ∧
      (LoopingCall.invoke L c CallbackOutcome.raises).2.1.runs = c.runs + 1) ∧
    ((LoopingCall.invoke L c CallbackOutcome.asyncErr).1 = L ∧
      (LoopingCall.invoke L c CallbackOutcome.asyncErr).2.1._cancelled = true ∧
      (LoopingCall.invoke L c CallbackOutcome.asyncErr).2.2 = 1 ∧
      (LoopingCall.invoke L c CallbackOutcome.asyncErr).2.1.runs = c.runs + 1) ∧
    (c._cancelled = true →
      (LoopingCall.invoke L c out).1 = L ∧
      (LoopingCall.invoke L c out).2.1.runs = c.runs + 1) ∧
    (LoopingCall.invoke L (LoopingCall.cancel c) out).1 = L := by
  refine ⟨?_, ?_, ?_, ?_⟩
  · exact ⟨rfl, rfl, rfl, rfl⟩
  · exact ⟨rfl, rfl, rfl, rfl⟩
  · intro hc
    cases out <;>
      simp [LoopingCall.invoke, LoopingCall._continue, LoopingCall.cancel, hc]
  · cases out <;>
      simp [LoopingCall.invoke, LoopingCall._continue, LoopingCall.cancel]

/-- Witness for C7 at a concrete state: an erroring callback cancels the
looping call with the loop untouched, and a cancelled looping call never
rearms though the in-flight run completes. -/
theorem LoopingCall.error_and_cancel_spec_witness :
    (LoopingCall.invoke ⟨4, 1, [], []⟩
        ⟨some 2, LCHandler.timer ⟨0, false, 6⟩, false, 0⟩
        CallbackOutcome.asyncErr).2.1._cancelled = true ∧
    (LoopingCall.invoke ⟨4, 1, [], []⟩
        ⟨some 2, LCHandler.timer ⟨0, false, 6⟩, true, 1⟩
        CallbackOutcome.syncValue).1 = ⟨4, 1, [], []⟩ := by
  have h1 := (LoopingCall.error_and_cancel_spec ⟨4, 1, [], []⟩
    ⟨some 2, LCHandler.timer ⟨0, false, 6⟩, false, 0⟩
    CallbackOutcome.syncValue).2.1
  have h2 := (LoopingCall.error_and_cancel_spec ⟨4, 1, [], []⟩
    ⟨some 2, LCHandler.timer ⟨0, false, 6⟩, true, 1⟩
    CallbackOutcome.syncValue).2.2.1 rfl
  exact ⟨h1.2.1, h2.1⟩

/-- Firing always leaves a oneshot event in the fired state. -/
theorem OneTime.fire_fired (e : OneTime) : (OneTime.fire e).fired = true := by
  unfold OneTime.fire
  split <;> simp_all

/-- Firing preserves the invariant "observer-invocation count is 1 when
fired and 0 when not". -/
theorem OneTime.fire_Q (e : OneTime)
    (h : e.count = if e.fired then 1 else 0) :
    (OneTime.fire e).count = if (OneTime.fire e).fired then 1 else 0 := by
  unfold OneTime.fire
  by_cases hf : e.fired
  · simpa [hf] using h
  · simp [hf] at h
    simp [hf, h]

/-- `close` leaves the `connection_lost` event untouched (cooperative
transport close: the event is fired later by the transport's
`connection_lost` callback; or already closed) or fires it (the fallback
paths). -/
theorem Protocol.close_event {σ : Type} (s : ProtocolState σ) :
    (Protocol.close s).connection_lost = s.connection_lost ∨
    (Protocol.close s).connection_lost = OneTime.fire s.connection_lost := by
  unfold Protocol.close
  by_cases hc : s.closedFlag
  · left; simp [hc]
  · cases ht : s.transport with
    | none => right; simp [hc, ht]
    | some t =>
        by_cases he : t.can_write_eof <;> by_cases hr : t.close_raises
        · right; simp [hc, ht, he, hr]
        · left; simp [hc, ht, he, hr]
        · right; simp [hc, ht, he, hr]
        · left; simp [hc, ht, he, hr]

/-- `abort` always fires the `connection_lost` event. -/
theorem Protocol.abort_event {σ : Type} (s : ProtocolState σ) :
    (Protocol.abort s).connection_lost = OneTime.fire s.connection_lost := by
  unfold Protocol.abort
  cases ht : s.transport <;> simp [ht]

/-- On the fallback paths — no transport, or a transport whose `close()`
raises — `close` fires the event itself. -/
theorem Protocol.close_fallback_event {σ : Type} (s : ProtocolState σ)
    (hc : s.closedFlag = false)
    (h : s.transport = none ∨ ∃ t, s.transport = some t ∧ t.close_raises = true) :
    (Protocol.close s).connection_lost = OneTime.fire s.connection_lost := by
  unfold Protocol.close
  rcases h with hn | ⟨t, ht, hr⟩
  · simp [hc, hn]
  · by_cases he : t.can_write_eof <;> simp [hc, ht, hr, he]

/-- Any teardown trace preserves the oneshot count invariant. -/
theorem Protocol.runTear_Q {σ : Type} :
    ∀ (ops : List TearOp) (s : ProtocolState σ),
      s.connection_lost.count = (if s.connection_lost.fired then 1 else 0) →
      (Protocol.runTear s ops).connection_lost.count =
        (if (Protocol.runTear s ops).connection_lost.fired then 1 else 0) := by
  intro ops
  induction ops with
  | nil => intro s h; exact h
  | cons op rest ih =>
      intro s h
      cases op with
      | close =>
          apply ih
          rcases Protocol.close_event s with hev | hev
          · rw [hev]; exact h
          · rw [hev]; exact OneTime.fire_Q _ h
      | abort =>
          apply ih
          rw [Protocol.abort_event]
          exact OneTime.fire_Q _ h
      | extLost =>
          apply ih
          exact OneTime.fire_Q _ h

/-- Once the `connection_lost` event has fired, no teardown trace can
unfire it. -/
theorem Protocol.runTear_fired_mono {σ : Type} :
    ∀ (ops : List TearOp) (s : ProtocolState σ),
      s.connection_lost.fired = true →
      (Protocol.runTear s ops).connection_lost.fired = true := by
  intro ops
  induction ops with
  | nil => intro s h; exact h
  | cons op rest ih =>
      intro s h
      cases op with
      | close =>
          apply ih
          rcases Protocol.close_event s with hev | hev
          · rw [hev]; exact h
          · rw [hev]; exact OneTime.fire_fired _
      | abort =>
          apply ih
          rw [Protocol.abort_event]
          exact OneTime.fire_fired _
      | extLost =>
          apply ih
          exact OneTime.fire_fired _

/-- A trace containing an `abort` or an external connection loss leaves
the event fired. -/
theorem Protocol.runTear_fired_of_mem {σ : Type} :
    ∀ (ops : List TearOp) (s : ProtocolState σ),
      (TearOp.abort ∈ ops ∨ TearOp.extLost ∈ ops) →
      (Protocol.runTear s ops).connection_lost.fired = true := by
  intro ops
  induction ops with
  | nil => intro s h; rcases h with h | h <;> simp at h
  | cons op rest ih =>
      intro s h
      cases op with
      | close =>
          apply ih
          rcases h with h | h
          · rcases List.mem_cons.mp h with h | h
            · cases h
            · exact Or.inl h
          · rcases List.mem_cons.mp h with h | h
            · cases h
            · exact Or.inr h
      | abort =>
          show (Protocol.runTear (Protocol.abort s) rest).connection_lost.fired = true
          apply Protocol.runTear_fired_mono
          rw [Protocol.abort_event]
          exact OneTime.fire_fired _
      | extLost =>
          show (Protocol.runTear (Protocol.connection_lost_cb s)
            rest).connection_lost.fired = true
          apply Protocol.runTear_fired_mono
          exact OneTime.fire_fired _

/-- C1: over any protocol lifetime — modelled as an arbitrary sequence of
`close()` calls, `abort()` calls and external transport-failure
callbacks, starting from a state whose oneshot event satisfies its count
invariant (as a fresh protocol does) — the `connection_lost` observers
run at most once; any trace containing an `abort` or an external failure
has run them exactly once; and `close()` on a not-yet-closed protocol
with no transport, or whose transport-close attempt raises, fires
`connection_lost` immediately as a fallback, for a total of exactly one
firing. -/
theorem Protocol.connection_lost_exactly_once {σ : Type}
    (s : ProtocolState σ)
    (hQ : s.connection_lost.count = if s.connection_lost.fired then 1 else 0)
    (ops : List TearOp) :
    (Protocol.runTear s ops).connection_lost.count ≤ 1 ∧
    ((TearOp.abort ∈ ops ∨ TearOp.extLost ∈ ops) →
      (Protocol.runTear s ops).connection_lost.count = 1) ∧
    (s.closedFlag = false →
      (s.transport = none ∨ ∃ t, s.transport = some t ∧ t.close_raises = true) →
      (Protocol.close s).connection_lost.fired = true ∧
      (Protocol.close s).connection_lost.count = 1) := by
  have hQr := Protocol.runTear_Q ops s hQ
  refine ⟨?_, ?_, ?_⟩
  · rw [hQr]
    split <;> omega
  · intro hmem
    rw [hQr, Protocol.runTear_fired_of_mem ops s hmem]
    simp
  · intro hc htr
    have hev := Protocol.close_fallback_event s hc htr
    refine ⟨by rw [hev]; exact OneTime.fire_fired _, ?_⟩
    rw [hev, OneTime.fire_Q s.connection_lost hQ, OneTime.fire_fired]
    simp

/-- Witness for C1 at a concrete input: a fresh protocol torn down by
`close()`, then `abort()`, then an external connection loss still runs
the `connection_lost` observers exactly once. -/
theorem Protocol.connection_lost_exactly_once_witness :
    (Protocol.runTear (Protocol.init Unit 1)
        [TearOp.close, TearOp.abort, TearOp.extLost]).connection_lost.count = 1 := by
  have h := Protocol.connection_lost_exactly_once (Protocol.init Unit 1)
    (by decide) [TearOp.close, TearOp.abort, TearOp.extLost]
  exact h.2.1 (Or.inl (by decide))

/-- Functional specification of the `data_received` while-loop, by
induction on the fuel: the consumed chunks reassemble the input exactly
(no byte dropped, none duplicated), `start()` is called exactly on the
iterations whose consumer has no request, each iteration's input is the
previous iteration's unconsumed suffix starting from the full input, and
the first iteration's consumer is the slot's occupant, or a freshly
created one only when the slot is empty. -/
theorem Protocol.data_received_loop_spec {σ : Type} (M : ConsumerModel σ)
    (hM : M.Progress) :
    ∀ (fuel : Nat) (slot : Option σ) (data : List Nat), data.length ≤ fuel →
      (((Protocol.data_received_loop M fuel slot data).2.map
          FeedStep.consumed).flatten = data) ∧
      (∀ st ∈ (Protocol.data_received_loop M fuel slot data).2,
          st.started = ! M.hasRequest st.cpre) ∧
      List.Chain' (fun a b => b.fed = a.toprocess)
          (Protocol.data_received_loop M fuel slot data).2 ∧
      ((Protocol.data_received_loop M fuel slot data).2.head?.map FeedStep.fed =
          if data.isEmpty then none else some data) ∧
      (data ≠ [] → (Protocol.data_received_loop M fuel slot data).2.head?.map
          FeedStep.cpre = some (slot.getD M.create)) := by
  intro fuel
  induction fuel with
  | zero =>
      intro slot data hle
      have hdata : data = [] := List.length_eq_zero.mp (Nat.le_zero.mp hle)
      subst hdata
      simp [Protocol.data_received_loop]
  | succ n ih =>
      intro slot data hle
      cases data with
      | nil => simp [Protocol.data_received_loop]
      | cons b bs =>
          have hne : (b :: bs) ≠ [] := by simp
          obtain ⟨hsuf, hlt⟩ := hM (if M.hasRequest (slot.getD M.create)
              then slot.getD M.create else M.start (slot.getD M.create)) (b :: bs) hne
          rcases hfd : M.feed_data (if M.hasRequest (slot.getD M.create)
              then slot.getD M.create else M.start (slot.getD M.create)) (b :: bs)
            with ⟨sl1, t⟩
          rw [hfd] at hsuf hlt
          simp only at hsuf hlt
          have hstep : (Protocol.data_received_loop M (n + 1) slot (b :: bs)).2 =
              ⟨slot.getD M.create, ! M.hasRequest (slot.getD M.create), b :: bs, t⟩ ::
                (Protocol.data_received_loop M n sl1 t).2 := by
            simp only [Protocol.data_received_loop]
            rw [hfd]
          have hle' : t.length ≤ n := by
            rw [List.length_cons] at hle hlt
            omega
          obtain ⟨ihA, ihB, ihC, ihD, ihE⟩ := ih sl1 t hle'
          rw [hstep]
          refine ⟨?_, ?_, ?_, ?_, ?_⟩
          · simp only [List.map_cons, List.flatten_cons]
            rw [ihA]
            obtain ⟨p, hp⟩ := hsuf
            show (b :: bs).take ((b :: bs).length - t.length) ++ t = b :: bs
            rw [← hp]
            have hidx : (p ++ t).length - t.length = p.length := by
              rw [List.length_append]
              omega
            rw [hidx, List.take_left]
          · intro st hst
            rcases List.mem_cons.mp hst with h | h
            · subst h; rfl
            · exact ihB st h
          · rw [List.chain'_cons']
            refine ⟨?_, ihC⟩
            intro y hy
            by_cases ht : t = []
            · subst ht
              simp at ihD
              simp [ihD] at hy
            · rw [if_neg (by simpa using ht)] at ihD
              obtain ⟨z, hz, hfz⟩ := Option.map_eq_some'.mp ihD
              rw [hz] at hy
              cases hy
              exact hfz
            -- `y.fed = t` where the step's toprocess is `t`
          · simp
          · intro _
            simp
  -- end of induction

/-- C4: every call of `Protocol.data_received(data)` loops while bytes
remain: each iteration obtains the consumer via `current_consumer()` —
reusing the slot's occupant, creating one only when the slot is empty —
calls the consumer's `start()` exactly when the consumer has no request
yet, feeds it the remaining bytes, and continues with the unconsumed
suffix it returned, starting from the full input; the consumed chunks
concatenate back to exactly the inbound bytes (none dropped); and the
activity timestamp is set (to the producer's cached current time) once,
after the loop, with the `data_received_count` bumped exactly once per
call.  Stated under the progress hypothesis that makes the Python
while-loop terminate: `feed_data` always consumes at least one byte. -/
theorem Protocol.data_received_spec {σ : Type} (M : ConsumerModel σ)
    (hM : M.Progress) (currentTime : Nat) (s : ProtocolState σ)
    (data : List Nat) :
    (Protocol.data_received M currentTime s data).1.last_change =
        some currentTime ∧
    (Protocol.data_received M currentTime s data).1.data_received_count =
        s.data_received_count + 1 ∧
    (((Protocol.data_received M currentTime s data).2.map
        FeedStep.consumed).flatten = data) ∧
    (∀ st ∈ (Protocol.data_received M currentTime s data).2,
        st.started = ! M.hasRequest st.cpre) ∧
    List.Chain' (fun a b => b.fed = a.toprocess)
        (Protocol.data_received M currentTime s data).2 ∧
    ((Protocol.data_received M currentTime s data).2.head?.map FeedStep.fed =
        if data.isEmpty then none else some data) ∧
    (data ≠ [] → (Protocol.data_received M currentTime s data).2.head?.map
        FeedStep.cpre = some (s._current_consumer.getD M.create)) := by
  have h := Protocol.data_received_loop_spec M hM data.length
    s._current_consumer data (le_refl _)
  exact ⟨rfl, rfl, h.1, h.2.1, h.2.2.1, h.2.2.2.1, h.2.2.2.2⟩

/-- A concrete consumer model: consumer state counts processed bytes,
a request exists once `start` ran (state made positive), and `feed_data`
consumes exactly one byte per call. -/
def ConsumerModel.dropOne : ConsumerModel Nat :=
  { create := 0
    hasRequest := fun c => c != 0
    start := fun c => c + 1
    feed_data := fun c d => (some (c + 1), d.drop 1) }

/-- `dropOne` makes progress on every call. -/
theorem ConsumerModel.dropOne_progress : ConsumerModel.dropOne.Progress := by
  intro c d hd
  refine ⟨List.drop_suffix 1 d, ?_⟩
  have hpos : 0 < d.length := List.length_pos.mpr hd
  simp [ConsumerModel.dropOne]
  omega

/-- Witness for C4 at a concrete input: feeding `[1, 2, 3]` to a fresh
protocol under the one-byte consumer updates the timestamp once after
the loop and routes every byte (the consumed chunks rebuild the data). -/
theorem Protocol.data_received_spec_witness :
    (Protocol.data_received ConsumerModel.dropOne 7
        (Protocol.init Nat 0) [1, 2, 3]).1.last_change = some 7 ∧
    ((Protocol.data_received ConsumerModel.dropOne 7
        (Protocol.init Nat 0) [1, 2, 3]).2.map FeedStep.consumed).flatten =
      [1, 2, 3] := by
  have h := Protocol.data_received_spec ConsumerModel.dropOne
    ConsumerModel.dropOne_progress 7 (Protocol.init Nat 0) [1, 2, 3]
  exact ⟨h.1, h.2.2.1⟩

end Pulsar
